import Mathlib

/-!
Verification of the CNA_SQL reporting scripts: the KPI traffic-light
classifier, the stock-status classifier, the pivot/reshape step, the
month-label ordering and the connection lifecycle, shallowly embedded
from the Python sources.
-/

/-- A Python float value as it reaches the classifier: either an ordinary
number (embedded as a rational) or NaN.  Comparisons involving NaN are
false, as in IEEE/Python. -/
inductive PyFloat where
  | nan : PyFloat
  | num : ℚ → PyFloat
deriving DecidableEq

/-- Python `val > c` on floats: false when `val` is NaN. -/
def PyFloat.gt : PyFloat → ℚ → Bool
  | .nan, _ => false
  | .num q, c => decide (c < q)

/-- Python `val >= c` on floats: false when `val` is NaN. -/
def PyFloat.ge : PyFloat → ℚ → Bool
  | .nan, _ => false
  | .num q, c => decide (c ≤ q)

/-- Python `val < c` on floats: false when `val` is NaN. -/
def PyFloat.lt : PyFloat → ℚ → Bool
  | .nan, _ => false
  | .num q, c => decide (q < c)

/-- Python `val <= c` on floats: false when `val` is NaN. -/
def PyFloat.le : PyFloat → ℚ → Bool
  | .nan, _ => false
  | .num q, c => decide (q ≤ c)

/-- The traffic-light classifier of
`MatplotLib_code/monthly_performance(kpis).py`, lines 28–45, translated
branch for branch. -/
def traffic_light (val : PyFloat) (kpi : String) : String :=
  if kpi = "average_stock_level" then
    if val.gt 100 then "green" else if val.ge 70 then "yellow" else "red"
  else if kpi = "stockout_rate" then
    if val.lt (1/10) then "green" else if val.le (3/10) then "yellow" else "red"
  else if kpi = "inventory_turnover" then
    if val.gt (5/2) then "green" else if val.ge (3/2) then "yellow" else "red"
  else if kpi = "sell_through_rate" then
    if val.gt 70 then "green" else if val.ge 50 then "yellow" else "red"
  else "gray"

/-- The list `kpi_list` of the script. -/
def kpi_list : List String :=
  ["average_stock_level", "stockout_rate", "inventory_turnover", "sell_through_rate"]

/-- The green interval of each recognized KPI, per the threshold table. -/
def greenSet : String → ℚ → Prop
  | "average_stock_level", q => 100 < q
  | "stockout_rate", q => q < 1/10
  | "inventory_turnover", q => 5/2 < q
  | "sell_through_rate", q => 70 < q
  | _, _ => False

/-- The yellow interval of each recognized KPI, per the threshold table. -/
def yellowSet : String → ℚ → Prop
  | "average_stock_level", q => 70 ≤ q ∧ q ≤ 100
  | "stockout_rate", q => 1/10 ≤ q ∧ q ≤ 3/10
  | "inventory_turnover", q => 3/2 ≤ q ∧ q ≤ 5/2
  | "sell_through_rate", q => 50 ≤ q ∧ q ≤ 70
  | _, _ => False

/-- The red interval of each recognized KPI, per the threshold table. -/
def redSet : String → ℚ → Prop
  | "average_stock_level", q => q < 70
  | "stockout_rate", q => 3/10 < q
  | "inventory_turnover", q => q < 3/2
  | "sell_through_rate", q => q < 50
  | _, _ => False

/-- Ordinal quality rank of a traffic-light label: green best, red worst. -/
def rank3 : String → ℕ
  | "green" => 2
  | "yellow" => 1
  | _ => 0

/-- The three KPIs whose traffic light improves as the value grows. -/
def upward_kpis : List String :=
  ["average_stock_level", "inventory_turnover", "sell_through_rate"]

/-- One row of the `store_vs_product.py` data frame: store and product
identifiers plus the two numeric measures the stock-status classifier
reads. -/
structure InvRow where
  store_id : ℕ
  product_id : ℕ
  inventory_level : ℚ
  units_ordered : ℚ
deriving DecidableEq

/-- The stock-status classifier of `MatplotLib_code/store_vs_product.py`,
lines 28–36, translated branch for branch (`0.5` is exactly `1/2`). -/
def get_stock_status (row : InvRow) : String :=
  if row.inventory_level = 0 then "Out of Stock"
  else if row.inventory_level < row.units_ordered * (1/2) then "Below Reorder"
  else if row.inventory_level < row.units_ordered then "Near Reorder"
  else "Adequate"

/-- The list `status_labels` of `store_vs_product.py`, ordered worst
first; the index in this list is the category's ordinal rank (its
`Status_Code`). -/
def status_labels : List String :=
  ["Out of Stock", "Below Reorder", "Near Reorder", "Adequate"]

/-- The dictionary `status_map = {label: i for i, label in
enumerate(status_labels)}` as a partial lookup. -/
def status_map (lab : String) : Option ℕ :=
  status_labels.findIdx? (fun s => s == lab)

/-- The `Status_Code` values contributed to the pivot cell
(product-id `p`, store-id `c`): the codes of the statuses of all data
rows sharing that key pair. -/
def matchCodes (rows : List InvRow) (p c : ℕ) : List ℕ :=
  (rows.filter (fun r => r.product_id == p && r.store_id == c)).filterMap
    (fun r => status_map (get_stock_status r))

/-- Minimum of a list of naturals, `none` on the empty list (pandas `min`
aggregation of a group). -/
def listMin : List ℕ → Option ℕ
  | [] => none
  | x :: xs =>
    match listMin xs with
    | none => some x
    | some m => some (min x m)

/-- One cell of `pivot_df = df.pivot_table(index="product_id",
columns="store_id", values="Status_Code", aggfunc="min")`: the minimum
status code over the contributing rows, absent when no row contributes. -/
def pivotCellMin (rows : List InvRow) (p c : ℕ) : Option ℕ :=
  listMin (matchCodes rows p c)

/-- One row of the `storeid_numberofproducts_stock.py` data frame:
the pivot index fields (store_id, region), the pivot column field
(stock_status) and the numeric value field (product_count). -/
structure CRow where
  store_id : ℕ
  region : String
  stock_status : String
  product_count : ℕ
deriving DecidableEq

/-- Mean of a list of counts, the default `aggfunc` of
`pandas.pivot_table` (exact on the rationals). -/
def aggMean (l : List ℕ) : ℚ :=
  (l.map (fun n => (n : ℚ))).sum / l.length

/-- The `product_count` values contributed by the input rows to the cell
(index-key `k`, column-key `s`). -/
def cellValues (rows : List CRow) (k : ℕ × String) (s : String) : List ℕ :=
  (rows.filter
    (fun r => decide ((r.store_id, r.region) = k) && decide (r.stock_status = s))).map
    (fun r => r.product_count)

/-- The (index-key, column-key) pairs that actually occur in the input,
in first-occurrence order: the groupby stage of `pivot_table`. -/
def observedPairs (rows : List CRow) : List ((ℕ × String) × String) :=
  (rows.map (fun r => ((r.store_id, r.region), r.stock_status))).dedup

/-- The aggregated (sparse) table: one mean per observed key pair. -/
def aggTable (rows : List CRow) : List (((ℕ × String) × String) × ℚ) :=
  (observedPairs rows).map (fun pk => (pk, aggMean (cellValues rows pk.1 pk.2)))

/-- One cell of `pivot_df = df.pivot_table(index=['store_id', 'region'],
columns='stock_status', values='product_count', fill_value=0)`: the
aggregated value when the pair was observed, the fill value 0 otherwise
(the unstack/reindex stage of `pivot_table`). -/
def pivotCellMean (rows : List CRow) (k : ℕ × String) (s : String) : ℚ :=
  match (aggTable rows).find? (fun e => decide (e.1 = (k, s))) with
  | some e => e.2
  | none => 0

/-- The row keys of the dense pivot output. -/
def indexKeys (rows : List CRow) : List (ℕ × String) :=
  (rows.map (fun r => (r.store_id, r.region))).dedup

/-- The column keys of the dense pivot output. -/
def colKeys (rows : List CRow) : List String :=
  (rows.map (fun r => r.stock_status)).dedup

/-- Observable resource events of one script run. -/
inductive Ev where
  | acquire : Ev
  | close : Ev
  | render : Ev
  | exited : Ev
deriving DecidableEq

/-- How the run's two external steps turn out: the connection attempt
fails (`get_connection` returns None), the query raises, or both
succeed. -/
inductive DbOutcome where
  | connectFail : DbOutcome
  | queryFail : DbOutcome
  | querySuccess : DbOutcome
deriving DecidableEq

/-- Event trace of one script run, from the pattern shared by all five
scripts: `conn = get_connection()` (None on a connect error, so nothing
is acquired), `if conn is None: exit(1)`, `df = pd.read_sql(query,
conn)` (an exception propagates uncaught and ends the process),
`conn.close()`, then the plotting calls. -/
def scriptEvents : DbOutcome → List Ev
  | .connectFail => [.exited]
  | .queryFail => [.acquire, .exited]
  | .querySuccess => [.acquire, .close, .render, .exited]

/-- Python string comparison `s1 <= s2` on month labels, by code point
(a label is embedded as its list of Unicode code points). -/
def strLe : List ℕ → List ℕ → Bool
  | [], _ => true
  | _ :: _, [] => false
  | a :: as, b :: bs => if a < b then true else if b < a then false else strLe as bs

/-- One insertion step of the stable ascending sort. -/
def insertMonth (x : List ℕ) : List (List ℕ) → List (List ℕ)
  | [] => [x]
  | y :: ys => if strLe x y then x :: y :: ys else y :: insertMonth x ys

/-- Python `sorted` on a list of strings: ascending, stable, comparing
lexicographically by code point (embedded as insertion sort, which is
extensionally the same sort). -/
def sortMonths : List (List ℕ) → List (List ℕ)
  | [] => []
  | x :: xs => insertMonth x (sortMonths xs)

/-- The assignment `months = sorted(df['month'].unique())` of
`monthly_performance(kpis).py` line 52: a plain string sort. -/
def months (l : List (List ℕ)) : List (List ℕ) := sortMonths l

/-- The assignment `last3months = sorted(months)[-3:]` of
`monthly_performance(kpis).py` line 75. -/
def last3months (l : List (List ℕ)) : List (List ℕ) :=
  (sortMonths (months l)).drop ((sortMonths (months l)).length - 3)

/-- Value of a nonempty all-digit code-point list, most significant
digit first; `none` otherwise. -/
def digitsVal (l : List ℕ) : Option ℕ :=
  if l = [] then none
  else if l.all (fun c => 48 ≤ c && c ≤ 57) then
    some (l.foldl (fun a c => 10 * a + (c - 48)) 0)
  else none

/-- Split a code-point list at the first dash (code 45). -/
def splitDash : List ℕ → List ℕ × List ℕ
  | [] => ([], [])
  | c :: cs => if c = 45 then ([], cs) else (c :: (splitDash cs).1, (splitDash cs).2)

/-- The spec-side comparison key, following the spec's words: "parse
`YYYY-MM` into a comparable period value before sorting" — year digits
before the dash, month digits after, compared as year*12+month.  The
source contains no such parse; this definition exists to compare the
spec's claimed mechanism against the source's string sort. -/
def specParsePeriod (l : List ℕ) : Option ℕ :=
  match digitsVal (splitDash l).1, digitsVal (splitDash l).2 with
  | some y, some m => some (12 * y + m)
  | _, _ => none

/-- The chronological value of a label (0 if it fails to parse). -/
def chronVal (l : List ℕ) : ℕ := (specParsePeriod l).getD 0

/-- The `k` zero-padded decimal digits of `n`, as code points. -/
def pad : ℕ → ℕ → List ℕ
  | 0, _ => []
  | k + 1, n => (48 + n / 10 ^ k) :: pad k (n % 10 ^ k)

/-- The label `DATE_FORMAT(snapshot_date, '%Y-%m')` produces for year
`y` and month `m`: four zero-padded year digits, a dash, two zero-padded
month digits. -/
def fmtMonth (y m : ℕ) : List ℕ := pad 4 y ++ 45 :: pad 2 m

theorem traffic_light_asl (v : PyFloat) :
    traffic_light v "average_stock_level" =
      (if v.gt 100 then "green" else if v.ge 70 then "yellow" else "red") := rfl

theorem traffic_light_sor (v : PyFloat) :
    traffic_light v "stockout_rate" =
      (if v.lt (1/10) then "green" else if v.le (3/10) then "yellow" else "red") := rfl

theorem traffic_light_it (v : PyFloat) :
    traffic_light v "inventory_turnover" =
      (if v.gt (5/2) then "green" else if v.ge (3/2) then "yellow" else "red") := rfl

theorem traffic_light_str (v : PyFloat) :
    traffic_light v "sell_through_rate" =
      (if v.gt 70 then "green" else if v.ge 50 then "yellow" else "red") := rfl

/-- A higher-is-better threshold chain (`> hi` green, `>= lo` yellow,
else red) classifies into exactly one of the three labels, and the label
matches the corresponding interval. -/
theorem trafficChainUp (lo hi q : ℚ) (hlh : lo ≤ hi) (out : String)
    (hout : out =
      if (PyFloat.num q).gt hi then "green"
      else if (PyFloat.num q).ge lo then "yellow" else "red") :
    (out = "green" ∨ out = "yellow" ∨ out = "red") ∧
    (out = "green" ↔ hi < q) ∧
    (out = "yellow" ↔ lo ≤ q ∧ q ≤ hi) ∧
    (out = "red" ↔ q < lo) ∧
    (hi < q ∨ (lo ≤ q ∧ q ≤ hi) ∨ q < lo) ∧
    ¬(hi < q ∧ (lo ≤ q ∧ q ≤ hi)) ∧
    ¬(hi < q ∧ q < lo) ∧
    ¬((lo ≤ q ∧ q ≤ hi) ∧ q < lo) := by
  have hcov : hi < q ∨ (lo ≤ q ∧ q ≤ hi) ∨ q < lo := by
    rcases lt_or_le hi q with h | h
    · exact Or.inl h
    · rcases le_or_lt lo q with h' | h'
      · exact Or.inr (Or.inl ⟨h', h⟩)
      · exact Or.inr (Or.inr h')
  have hex1 : ¬(hi < q ∧ (lo ≤ q ∧ q ≤ hi)) :=
    fun ⟨a, _, c⟩ => absurd a (not_lt.mpr c)
  have hex2 : ¬(hi < q ∧ q < lo) :=
    fun ⟨a, b⟩ => absurd a (not_lt.mpr (le_of_lt (lt_of_lt_of_le b hlh)))
  have hex3 : ¬((lo ≤ q ∧ q ≤ hi) ∧ q < lo) :=
    fun ⟨⟨a, _⟩, c⟩ => absurd c (not_lt.mpr a)
  simp only [PyFloat.gt, PyFloat.ge, decide_eq_true_eq] at hout
  subst hout
  split_ifs with h1 h2
  · exact ⟨Or.inl rfl,
      ⟨fun _ => h1, fun _ => rfl⟩,
      ⟨fun he => absurd he (by decide), fun hy => absurd h1 (not_lt.mpr hy.2)⟩,
      ⟨fun he => absurd he (by decide),
        fun hr => absurd h1 (not_lt.mpr (le_of_lt (lt_of_lt_of_le hr hlh)))⟩,
      hcov, hex1, hex2, hex3⟩
  · exact ⟨Or.inr (Or.inl rfl),
      ⟨fun he => absurd he (by decide), fun hg => absurd hg h1⟩,
      ⟨fun _ => ⟨h2, not_lt.mp h1⟩, fun _ => rfl⟩,
      ⟨fun he => absurd he (by decide), fun hr => absurd hr (not_lt.mpr h2)⟩,
      hcov, hex1, hex2, hex3⟩
  · exact ⟨Or.inr (Or.inr rfl),
      ⟨fun he => absurd he (by decide), fun hg => absurd hg h1⟩,
      ⟨fun he => absurd he (by decide), fun hy => absurd hy.1 h2⟩,
      ⟨fun _ => not_le.mp h2, fun _ => rfl⟩,
      hcov, hex1, hex2, hex3⟩

/-- A lower-is-better threshold chain (`< lo` green, `<= hi` yellow,
else red) classifies into exactly one of the three labels, and the label
matches the corresponding interval. -/
theorem trafficChainDown (lo hi q : ℚ) (hlh : lo ≤ hi) (out : String)
    (hout : out =
      if (PyFloat.num q).lt lo then "green"
      else if (PyFloat.num q).le hi then "yellow" else "red") :
    (out = "green" ∨ out = "yellow" ∨ out = "red") ∧
    (out = "green" ↔ q < lo) ∧
    (out = "yellow" ↔ lo ≤ q ∧ q ≤ hi) ∧
    (out = "red" ↔ hi < q) ∧
    (q < lo ∨ (lo ≤ q ∧ q ≤ hi) ∨ hi < q) ∧
    ¬(q < lo ∧ (lo ≤ q ∧ q ≤ hi)) ∧
    ¬(q < lo ∧ hi < q) ∧
    ¬((lo ≤ q ∧ q ≤ hi) ∧ hi < q) := by
  have hcov : q < lo ∨ (lo ≤ q ∧ q ≤ hi) ∨ hi < q := by
    rcases lt_or_le q lo with h | h
    · exact Or.inl h
    · rcases le_or_lt q hi with h' | h'
      · exact Or.inr (Or.inl ⟨h, h'⟩)
      · exact Or.inr (Or.inr h')
  have hex1 : ¬(q < lo ∧ (lo ≤ q ∧ q ≤ hi)) :=
    fun ⟨a, b, _⟩ => absurd b (not_le.mpr a)
  have hex2 : ¬(q < lo ∧ hi < q) :=
    fun ⟨a, b⟩ => absurd a (not_lt.mpr (le_of_lt (lt_of_le_of_lt hlh b)))
  have hex3 : ¬((lo ≤ q ∧ q ≤ hi) ∧ hi < q) :=
    fun ⟨⟨_, b⟩, c⟩ => absurd c (not_lt.mpr b)
  simp only [PyFloat.lt, PyFloat.le, decide_eq_true_eq] at hout
  subst hout
  split_ifs with h1 h2
  · exact ⟨Or.inl rfl,
      ⟨fun _ => h1, fun _ => rfl⟩,
      ⟨fun he => absurd he (by decide), fun hy => absurd hy.1 (not_le.mpr h1)⟩,
      ⟨fun he => absurd he (by decide),
        fun hr => absurd h1 (not_lt.mpr (le_of_lt (lt_of_le_of_lt hlh hr)))⟩,
      hcov, hex1, hex2, hex3⟩
  · exact ⟨Or.inr (Or.inl rfl),
      ⟨fun he => absurd he (by decide), fun hg => absurd hg h1⟩,
      ⟨fun _ => ⟨not_lt.mp h1, h2⟩, fun _ => rfl⟩,
      ⟨fun he => absurd he (by decide), fun hr => absurd hr (not_lt.mpr h2)⟩,
      hcov, hex1, hex2, hex3⟩
  · exact ⟨Or.inr (Or.inr rfl),
      ⟨fun he => absurd he (by decide), fun hg => absurd hg h1⟩,
      ⟨fun he => absurd he (by decide), fun hy => absurd hy.2 h2⟩,
      ⟨fun _ => not_le.mp h2, fun _ => rfl⟩,
      hcov, hex1, hex2, hex3⟩

/-- C1: for each recognized KPI and every numeric value, `traffic_light`
returns exactly one of green/yellow/red, the returned label is exactly the
one whose threshold interval contains the value, and the three intervals
cover every value without overlap. -/
theorem c1_classifier_partition (kpi : String) (hk : kpi ∈ kpi_list) (q : ℚ) :
    (traffic_light (.num q) kpi = "green" ∨ traffic_light (.num q) kpi = "yellow" ∨
      traffic_light (.num q) kpi = "red") ∧
    (traffic_light (.num q) kpi = "green" ↔ greenSet kpi q) ∧
    (traffic_light (.num q) kpi = "yellow" ↔ yellowSet kpi q) ∧
    (traffic_light (.num q) kpi = "red" ↔ redSet kpi q) ∧
    (greenSet kpi q ∨ yellowSet kpi q ∨ redSet kpi q) ∧
    ¬(greenSet kpi q ∧ yellowSet kpi q) ∧
    ¬(greenSet kpi q ∧ redSet kpi q) ∧
    ¬(yellowSet kpi q ∧ redSet kpi q) := by
  simp only [kpi_list, List.mem_cons, List.not_mem_nil, or_false] at hk
  rcases hk with rfl | rfl | rfl | rfl
  · simpa only [greenSet, yellowSet, redSet] using
      trafficChainUp 70 100 q (by norm_num) _ (traffic_light_asl (.num q))
  · simpa only [greenSet, yellowSet, redSet] using
      trafficChainDown (1/10) (3/10) q (by norm_num) _ (traffic_light_sor (.num q))
  · simpa only [greenSet, yellowSet, redSet] using
      trafficChainUp (3/2) (5/2) q (by norm_num) _ (traffic_light_it (.num q))
  · simpa only [greenSet, yellowSet, redSet] using
      trafficChainUp 50 70 q (by norm_num) _ (traffic_light_str (.num q))

/-- C1 witness: the theorem applied at the concrete KPI
`average_stock_level` and value 85. -/
theorem c1_classifier_partition_witness :
    (traffic_light (.num 85) "average_stock_level" = "green" ∨
      traffic_light (.num 85) "average_stock_level" = "yellow" ∨
      traffic_light (.num 85) "average_stock_level" = "red") ∧
    (traffic_light (.num 85) "average_stock_level" = "green" ↔ greenSet "average_stock_level" 85) ∧
    (traffic_light (.num 85) "average_stock_level" = "yellow" ↔ yellowSet "average_stock_level" 85) ∧
    (traffic_light (.num 85) "average_stock_level" = "red" ↔ redSet "average_stock_level" 85) ∧
    (greenSet "average_stock_level" 85 ∨ yellowSet "average_stock_level" 85 ∨
      redSet "average_stock_level" 85) ∧
    ¬(greenSet "average_stock_level" 85 ∧ yellowSet "average_stock_level" 85) ∧
    ¬(greenSet "average_stock_level" 85 ∧ redSet "average_stock_level" 85) ∧
    ¬(yellowSet "average_stock_level" 85 ∧ redSet "average_stock_level" 85) :=
  c1_classifier_partition "average_stock_level" (by decide) 85

/-- C2: the tabulated boundary values classify into the middle (yellow)
category: 70 for average_stock_level, 0.30 for stockout_rate, 50 for
sell_through_rate. -/
theorem c2_boundary_yellow :
    traffic_light (.num 70) "average_stock_level" = "yellow" ∧
    traffic_light (.num (3/10)) "stockout_rate" = "yellow" ∧
    traffic_light (.num 50) "sell_through_rate" = "yellow" := by
  refine ⟨?_, ?_, ?_⟩
  · rw [traffic_light_asl]; norm_num [PyFloat.gt, PyFloat.ge]
  · rw [traffic_light_sor]; norm_num [PyFloat.lt, PyFloat.le]
  · rw [traffic_light_str]; norm_num [PyFloat.gt, PyFloat.ge]

/-- Rank monotonicity of a higher-is-better threshold chain. -/
theorem rankUpMono (lo hi v1 v2 : ℚ) (h : v1 ≤ v2) :
    rank3 (if (PyFloat.num v1).gt hi then "green"
      else if (PyFloat.num v1).ge lo then "yellow" else "red") ≤
    rank3 (if (PyFloat.num v2).gt hi then "green"
      else if (PyFloat.num v2).ge lo then "yellow" else "red") := by
  simp only [PyFloat.gt, PyFloat.ge, decide_eq_true_eq]
  split_ifs <;> first | decide | (exfalso; push_neg at *; linarith)

/-- Rank antitonicity of a lower-is-better threshold chain. -/
theorem rankDownMono (lo hi v1 v2 : ℚ) (h : v1 ≤ v2) :
    rank3 (if (PyFloat.num v2).lt lo then "green"
      else if (PyFloat.num v2).le hi then "yellow" else "red") ≤
    rank3 (if (PyFloat.num v1).lt lo then "green"
      else if (PyFloat.num v1).le hi then "yellow" else "red") := by
  simp only [PyFloat.lt, PyFloat.le, decide_eq_true_eq]
  split_ifs <;> first | decide | (exfalso; push_neg at *; linarith)

/-- C10: the classification is monotone in the value: for
average_stock_level, inventory_turnover and sell_through_rate a larger
value never gets a worse (lower-ranked) label; for stockout_rate a larger
value never gets a better label. -/
theorem c10_classifier_monotone (v1 v2 : ℚ) (h : v1 ≤ v2) :
    (∀ kpi ∈ upward_kpis,
      rank3 (traffic_light (.num v1) kpi) ≤ rank3 (traffic_light (.num v2) kpi)) ∧
    rank3 (traffic_light (.num v2) "stockout_rate") ≤
      rank3 (traffic_light (.num v1) "stockout_rate") := by
  constructor
  · intro kpi hk
    simp only [upward_kpis, List.mem_cons, List.not_mem_nil, or_false] at hk
    rcases hk with rfl | rfl | rfl
    · rw [traffic_light_asl, traffic_light_asl]; exact rankUpMono 70 100 v1 v2 h
    · rw [traffic_light_it, traffic_light_it]; exact rankUpMono (3/2) (5/2) v1 v2 h
    · rw [traffic_light_str, traffic_light_str]; exact rankUpMono 50 70 v1 v2 h
  · rw [traffic_light_sor, traffic_light_sor]; exact rankDownMono (1/10) (3/10) v1 v2 h

/-- C10 witness: the theorem applied at values 60 ≤ 80 and KPI
`average_stock_level`, and at `stockout_rate`. -/
theorem c10_classifier_monotone_witness :
    rank3 (traffic_light (.num 60) "average_stock_level") ≤
      rank3 (traffic_light (.num 80) "average_stock_level") ∧
    rank3 (traffic_light (.num 80) "stockout_rate") ≤
      rank3 (traffic_light (.num 60) "stockout_rate") :=
  ⟨(c10_classifier_monotone 60 80 (by norm_num)).1 "average_stock_level" (by decide),
    (c10_classifier_monotone 60 80 (by norm_num)).2⟩

/-- C4: a row with zero inventory_level is always classified
"Out of Stock", whatever units_ordered is. -/
theorem c4_zero_inventory_out_of_stock (row : InvRow)
    (h : row.inventory_level = 0) : get_stock_status row = "Out of Stock" := by
  simp [get_stock_status, h]

/-- C4 witness: the theorem applied at a concrete row with
inventory_level = 0 and units_ordered = 0. -/
theorem c4_zero_inventory_out_of_stock_witness :
    get_stock_status ⟨1, 1, 0, 0⟩ = "Out of Stock" :=
  c4_zero_inventory_out_of_stock ⟨1, 1, 0, 0⟩ rfl

/-- C5: a row with units_ordered = 0 and positive inventory_level is
classified (totally, with no division anywhere in the classifier) as
"Adequate". -/
theorem c5_zero_orders_adequate (row : InvRow)
    (hu : row.units_ordered = 0) (hpos : 0 < row.inventory_level) :
    get_stock_status row = "Adequate" := by
  rw [get_stock_status, if_neg (ne_of_gt hpos), hu]
  rw [if_neg (by simp [not_lt.mpr hpos.le]), if_neg (by simp [not_lt.mpr hpos.le])]

/-- C5 witness: the theorem applied at a concrete row with
inventory_level = 5 and units_ordered = 0. -/
theorem c5_zero_orders_adequate_witness :
    get_stock_status ⟨1, 1, 5, 0⟩ = "Adequate" :=
  c5_zero_orders_adequate ⟨1, 1, 5, 0⟩ rfl (by norm_num)

theorem listMin_eq_none (l : List ℕ) : listMin l = none ↔ l = [] := by
  cases l with
  | nil => simp [listMin]
  | cons x xs =>
    simp only [listMin]
    cases listMin xs <;> simp

theorem listMin_spec (l : List ℕ) (v : ℕ) (h : listMin l = some v) :
    v ∈ l ∧ ∀ w ∈ l, v ≤ w := by
  induction l generalizing v with
  | nil => simp [listMin] at h
  | cons x xs ih =>
    rcases hxs : listMin xs with _ | m
    · have hnil : xs = [] := (listMin_eq_none xs).mp hxs
      subst hnil
      simp only [listMin] at h
      obtain rfl : x = v := by injection h
      simp
    · simp only [listMin, hxs, Option.some.injEq] at h
      subst h
      obtain ⟨hm, hall⟩ := ih m hxs
      refine ⟨?_, ?_⟩
      · rcases le_total x m with hc | hc
        · rw [min_eq_left hc]; exact List.mem_cons_self x xs
        · rw [min_eq_right hc]; exact List.mem_cons_of_mem _ hm
      · intro w hw
        rcases List.mem_cons.mp hw with rfl | hw'
        · exact min_le_left _ _
        · exact le_trans (min_le_right _ _) (hall w hw')

/-- C6: whenever the min-aggregated pivot cell for (product `p`, store
`c`) is defined, its value is the status code of one of the contributing
rows and is no larger than every contributing row's status code — the
single worst observed category wins. -/
theorem c6_pivot_min_is_worst (rows : List InvRow) (p c v : ℕ)
    (h : pivotCellMin rows p c = some v) :
    v ∈ matchCodes rows p c ∧ ∀ w ∈ matchCodes rows p c, v ≤ w :=
  listMin_spec _ v h

/-- C6 witness: two rows sharing (product 7, store 1), one classified
"Adequate" (code 3) and one "Out of Stock" (code 0); the theorem applied
there shows the cell holds code 0, i.e. "Out of Stock". -/
theorem c6_pivot_min_is_worst_witness :
    pivotCellMin [⟨1, 7, 10, 2⟩, ⟨1, 7, 0, 0⟩] 7 1 = some 0 ∧
    0 ∈ matchCodes [⟨1, 7, 10, 2⟩, ⟨1, 7, 0, 0⟩] 7 1 ∧
    status_map "Out of Stock" = some 0 ∧ status_map "Adequate" = some 3 := by
  have hcodes : matchCodes [⟨1, 7, 10, 2⟩, ⟨1, 7, 0, 0⟩] 7 1 = [3, 0] := by
    norm_num [matchCodes, List.filter, List.filterMap, get_stock_status, status_map,
      status_labels, List.findIdx?]
    decide
  have hcell : pivotCellMin [⟨1, 7, 10, 2⟩, ⟨1, 7, 0, 0⟩] 7 1 = some 0 := by
    rw [pivotCellMin, hcodes]; decide
  exact ⟨hcell, (c6_pivot_min_is_worst _ 7 1 0 hcell).1, by decide, by decide⟩

theorem find_map_of_mem {β γ : Type*} [DecidableEq β] (f : β → γ) (x : β) :
    ∀ ps : List β, x ∈ ps →
      (ps.map (fun p => (p, f p))).find? (fun e => decide (e.1 = x)) = some (x, f x) := by
  intro ps
  induction ps with
  | nil => intro h; simp at h
  | cons p ps ih =>
    intro h
    by_cases hpx : p = x
    · subst hpx
      rw [List.map_cons, List.find?_cons_of_pos _ (by simp)]
    · rw [List.map_cons, List.find?_cons_of_neg _ (by simp [hpx])]
      exact ih (by rcases List.mem_cons.mp h with rfl | hm
                   · exact absurd rfl hpx
                   · exact hm)

theorem find_map_of_not_mem {β γ : Type*} [DecidableEq β] (f : β → γ) (x : β) :
    ∀ ps : List β, x ∉ ps →
      (ps.map (fun p => (p, f p))).find? (fun e => decide (e.1 = x)) = none := by
  intro ps
  induction ps with
  | nil => intro _; simp
  | cons p ps ih =>
    intro h
    have hpx : p ≠ x := fun he => h (he ▸ List.mem_cons_self p ps)
    rw [List.map_cons, List.find?_cons_of_neg _ (by simp [hpx])]
    exact ih (fun hm => h (List.mem_cons_of_mem _ hm))

theorem observed_iff (rows : List CRow) (k : ℕ × String) (s : String) :
    (k, s) ∈ observedPairs rows ↔ cellValues rows k s ≠ [] := by
  rw [observedPairs, List.mem_dedup, List.mem_map]
  constructor
  · rintro ⟨r, hr, heq⟩ hnil
    rw [cellValues, List.map_eq_nil_iff] at hnil
    have hnp := List.filter_eq_nil_iff.mp hnil r hr
    apply hnp
    simp only [Bool.and_eq_true, decide_eq_true_eq]
    exact ⟨congrArg Prod.fst heq, congrArg Prod.snd heq⟩
  · intro hne
    by_contra hnone
    push_neg at hnone
    apply hne
    rw [cellValues, List.map_eq_nil_iff, List.filter_eq_nil_iff]
    intro r hr
    simp only [Bool.and_eq_true, decide_eq_true_eq, not_and]
    intro h1 h2
    exact absurd (by rw [h1, h2]) (hnone r hr)

/-- C7: in the dense numeric pivot, a cell whose key pair has no
contributing rows holds the configured fill value 0, and a cell with
contributing rows holds the aggregated (mean) value of those rows. -/
theorem c7_pivot_fill_zero (rows : List CRow) (k : ℕ × String) (s : String)
    (hk : k ∈ indexKeys rows) (hs : s ∈ colKeys rows) :
    (cellValues rows k s = [] → pivotCellMean rows k s = 0) ∧
    (cellValues rows k s ≠ [] → pivotCellMean rows k s = aggMean (cellValues rows k s)) := by
  constructor
  · intro hnil
    have hnot : (k, s) ∉ observedPairs rows :=
      fun hmem => (observed_iff rows k s).mp hmem hnil
    rw [pivotCellMean, aggTable, find_map_of_not_mem _ _ _ hnot]
  · intro hne
    have hmem : (k, s) ∈ observedPairs rows := (observed_iff rows k s).mpr hne
    rw [pivotCellMean, aggTable, find_map_of_mem _ _ _ hmem]

/-- C7 witness: two rows whose dense pivot grid is 2×2; the pair
((2, "S"), "Out of Stock") has no contributing rows and gets fill 0,
while ((1, "R"), "Out of Stock") gets the aggregated value. -/
theorem c7_pivot_fill_zero_witness :
    pivotCellMean [⟨1, "R", "Out of Stock", 5⟩, ⟨2, "S", "Adequate Stock", 7⟩]
      (2, "S") "Out of Stock" = 0 ∧
    pivotCellMean [⟨1, "R", "Out of Stock", 5⟩, ⟨2, "S", "Adequate Stock", 7⟩]
      (1, "R") "Out of Stock" =
      aggMean (cellValues [⟨1, "R", "Out of Stock", 5⟩, ⟨2, "S", "Adequate Stock", 7⟩]
        (1, "R") "Out of Stock") :=
  ⟨(c7_pivot_fill_zero _ (2, "S") "Out of Stock" (by decide) (by decide)).1 (by decide),
    (c7_pivot_fill_zero _ (1, "R") "Out of Stock" (by decide) (by decide)).2 (by decide)⟩

/-- C3 counterexample: at the concrete input (NaN, "average_stock_level")
— a recognized KPI with an undefined value — `traffic_light` returns
"red", one of the green/yellow/red labels, not the neutral "gray". -/
theorem c3_nan_counterexample :
    traffic_light PyFloat.nan "average_stock_level" = "red" ∧
    traffic_light PyFloat.nan "average_stock_level" ≠ "gray" := by
  constructor
  · rfl
  · intro h
    exact absurd h (by decide)

/-- C3 amended: an unrecognized KPI identifier yields the neutral "gray"
for every value, but a NaN value under a recognized KPI falls through
every comparison (NaN comparisons are false) into the final else branch
and yields "red", never "gray" and never an error. -/
theorem c3_amended_neutral (kpi : String) (v : PyFloat) :
    (kpi ∉ kpi_list → traffic_light v kpi = "gray") ∧
    (kpi ∈ kpi_list → traffic_light PyFloat.nan kpi = "red") := by
  constructor
  · intro hk
    simp only [kpi_list, List.mem_cons, List.not_mem_nil, or_false, not_or] at hk
    obtain ⟨h1, h2, h3, h4⟩ := hk
    simp only [traffic_light]
    rw [if_neg h1, if_neg h2, if_neg h3, if_neg h4]
  · intro hk
    simp only [kpi_list, List.mem_cons, List.not_mem_nil, or_false] at hk
    rcases hk with rfl | rfl | rfl | rfl <;> rfl

/-- C3 amended witness: the theorem applied at the unrecognized KPI
"units_sold" and at the recognized KPI "stockout_rate" with NaN. -/
theorem c3_amended_neutral_witness :
    traffic_light (PyFloat.num 5) "units_sold" = "gray" ∧
    traffic_light PyFloat.nan "stockout_rate" = "red" :=
  ⟨(c3_amended_neutral "units_sold" (PyFloat.num 5)).1 (by decide),
    (c3_amended_neutral "stockout_rate" (PyFloat.num 5)).2 (by decide)⟩

/-- C9 counterexample: on the failing-query path the connection is
acquired but never closed before the process exits — there is no
try/finally around `pd.read_sql`. -/
theorem c9_query_fail_counterexample :
    Ev.acquire ∈ scriptEvents .queryFail ∧ Ev.close ∉ scriptEvents .queryFail := by
  decide

/-- C9 amended: the connection is acquired at most once and only as the
first step; on the success path it is closed before any rendering; on a
failed connection attempt nothing is acquired; but on a failing query the
process exits without closing the acquired connection. -/
theorem c9_amended_lifecycle (o : DbOutcome) :
    (scriptEvents o).count .acquire ≤ 1 ∧
    (Ev.acquire ∈ scriptEvents o → (scriptEvents o).head? = some .acquire) ∧
    (Ev.render ∈ scriptEvents o →
      scriptEvents o = [.acquire, .close, .render, .exited]) ∧
    (o = .connectFail → Ev.acquire ∉ scriptEvents o) ∧
    (o = .queryFail → Ev.close ∉ scriptEvents o) := by
  cases o <;> exact ⟨by decide, by decide, by decide, by decide, by decide⟩

/-- C9 amended witness: the theorem applied at the failing-query
outcome. -/
theorem c9_amended_lifecycle_witness :
    (scriptEvents .queryFail).count .acquire ≤ 1 ∧
    (scriptEvents .queryFail).head? = some .acquire ∧
    Ev.close ∉ scriptEvents .queryFail :=
  ⟨(c9_amended_lifecycle .queryFail).1,
    (c9_amended_lifecycle .queryFail).2.1 (by decide),
    (c9_amended_lifecycle .queryFail).2.2.2.2 rfl⟩

theorem strLe_pad_append : ∀ (k a b : ℕ) (ys ys' : List ℕ), a < 10 ^ k → b < 10 ^ k →
    strLe (pad k a ++ ys) (pad k b ++ ys') =
      if a < b then true else if b < a then false else strLe ys ys' := by
  intro k
  induction k with
  | zero =>
    intro a b ys ys' ha hb
    simp only [pow_zero] at ha hb
    obtain rfl : a = 0 := by omega
    obtain rfl : b = 0 := by omega
    simp [pad]
  | succ k ih =>
    intro a b ys ys' ha hb
    have hP : 0 < 10 ^ k := pow_pos (by norm_num) k
    simp only [pad, List.cons_append, strLe, List.append_eq]
    rw [ih (a % 10 ^ k) (b % 10 ^ k) ys ys' (Nat.mod_lt _ hP) (Nat.mod_lt _ hP)]
    rcases Nat.lt_trichotomy (a / 10 ^ k) (b / 10 ^ k) with hq | hq | hq
    · have hab : a < b := by
        by_contra hc
        push_neg at hc
        exact absurd hq (not_lt.mpr (Nat.div_le_div_right hc))
      rw [if_pos (Nat.add_lt_add_left hq 48), if_pos hab]
    · have e1 := Nat.div_add_mod a (10 ^ k)
      have e2 := Nat.div_add_mod b (10 ^ k)
      rw [hq] at e1
      rw [if_neg (by simp [hq]), if_neg (by simp [hq])]
      rcases Nat.lt_trichotomy (a % 10 ^ k) (b % 10 ^ k) with hr | hr | hr
      · have hab : a < b := by linarith
        rw [if_pos hr, if_pos hab]
      · have hab : a = b := by rw [hr] at e1; linarith
        subst hab
        simp
      · have hab : b < a := by linarith
        rw [if_neg (by omega), if_pos hr, if_neg (by omega), if_pos hab]
    · have hab : b < a := by
        by_contra hc
        push_neg at hc
        exact absurd hq (not_lt.mpr (Nat.div_le_div_right hc))
      rw [if_neg (by omega), if_pos (Nat.add_lt_add_left hq 48),
        if_neg (by omega), if_pos hab]

theorem strLe_fmt (y1 m1 y2 m2 : ℕ) (hy1 : y1 < 10 ^ 4) (hy2 : y2 < 10 ^ 4)
    (hm1 : m1 < 10 ^ 2) (hm2 : m2 < 10 ^ 2) :
    (strLe (fmtMonth y1 m1) (fmtMonth y2 m2) = true) ↔
      (y1 < y2 ∨ (y1 = y2 ∧ m1 ≤ m2)) := by
  rw [fmtMonth, fmtMonth, strLe_pad_append 4 y1 y2 _ _ hy1 hy2]
  rcases Nat.lt_trichotomy y1 y2 with hy | hy | hy
  · rw [if_pos hy]; simp [hy]
  · subst hy
    rw [if_neg (lt_irrefl _), if_neg (lt_irrefl _)]
    simp only [strLe, lt_irrefl, if_false]
    norm_num
    omega
  · rw [if_neg (by omega), if_pos hy]
    simp
    omega

theorem strLe_total (a : List ℕ) : ∀ b, strLe a b = true ∨ strLe b a = true := by
  induction a with
  | nil => intro b; left; rfl
  | cons x xs ih =>
    intro b
    cases b with
    | nil => right; rfl
    | cons y ys =>
      simp only [strLe]
      rcases Nat.lt_trichotomy x y with h | h | h
      · left; rw [if_pos h]
      · subst h
        rcases ih ys with h' | h'
        · left; rw [if_neg (lt_irrefl _), if_neg (lt_irrefl _), h']
        · right; rw [if_neg (lt_irrefl _), if_neg (lt_irrefl _), h']
      · right; rw [if_pos h]

theorem strLe_trans (a : List ℕ) : ∀ b c, strLe a b = true → strLe b c = true →
    strLe a c = true := by
  induction a with
  | nil => intro b c _ _; rfl
  | cons x xs ih =>
    intro b c hab hbc
    cases b with
    | nil => simp [strLe] at hab
    | cons y ys =>
      cases c with
      | nil => simp [strLe] at hbc
      | cons z zs =>
        simp only [strLe] at hab hbc ⊢
        by_cases hxy : x < y
        · by_cases hyz : y < z
          · rw [if_pos (by omega)]
          · by_cases hzy : z < y
            · rw [if_neg hyz, if_pos hzy] at hbc; exact absurd hbc (by decide)
            · obtain rfl : y = z := by omega
              rw [if_pos hxy]
        · by_cases hyx : y < x
          · rw [if_neg hxy, if_pos hyx] at hab; exact absurd hab (by decide)
          · obtain rfl : x = y := by omega
            rw [if_neg (lt_irrefl _), if_neg (lt_irrefl _)] at hab
            by_cases hyz : x < z
            · rw [if_pos hyz]
            · by_cases hzy : z < x
              · rw [if_neg hyz, if_pos hzy] at hbc; exact absurd hbc (by decide)
              · obtain rfl : x = z := by omega
                rw [if_neg (lt_irrefl _), if_neg (lt_irrefl _)] at hbc ⊢
                exact ih ys zs hab hbc

theorem mem_insertMonth (x z : List ℕ) : ∀ l, z ∈ insertMonth x l ↔ z = x ∨ z ∈ l := by
  intro l
  induction l with
  | nil => simp [insertMonth]
  | cons y ys ih =>
    rw [insertMonth]
    split_ifs with h
    · simp [List.mem_cons]
    · simp only [List.mem_cons, ih]
      tauto

theorem sortMonths_mem (z : List ℕ) : ∀ l, z ∈ sortMonths l ↔ z ∈ l := by
  intro l
  induction l with
  | nil => simp [sortMonths]
  | cons x xs ih =>
    rw [sortMonths, mem_insertMonth]
    simp [ih]

theorem insertMonth_pairwise (x : List ℕ) :
    ∀ l, l.Pairwise (fun a b => strLe a b = true) →
      (insertMonth x l).Pairwise (fun a b => strLe a b = true) := by
  intro l
  induction l with
  | nil => intro _; simp [insertMonth]
  | cons y ys ih =>
    intro hp
    rw [insertMonth]
    split_ifs with h
    · refine List.Pairwise.cons ?_ hp
      intro z hz
      rcases List.mem_cons.mp hz with rfl | hz'
      · exact h
      · exact strLe_trans x y z h (List.rel_of_pairwise_cons hp hz')
    · have hyx : strLe y x = true := by
        rcases strLe_total x y with h' | h'
        · exact absurd h' h
        · exact h'
      refine List.Pairwise.cons ?_ (ih (List.Pairwise.of_cons hp))
      intro z hz
      rcases (mem_insertMonth x z ys).mp hz with rfl | hz'
      · exact hyx
      · exact List.rel_of_pairwise_cons hp hz'

theorem sortMonths_pairwise :
    ∀ l, (sortMonths l).Pairwise (fun a b => strLe a b = true) := by
  intro l
  induction l with
  | nil => simp [sortMonths]
  | cons x xs ih =>
    rw [sortMonths]
    exact insertMonth_pairwise x _ ih

theorem pad_digit_bounds : ∀ (k n : ℕ), n < 10 ^ k → ∀ c ∈ pad k n, 48 ≤ c ∧ c ≤ 57 := by
  intro k
  induction k with
  | zero => intro n _ c hc; simp [pad] at hc
  | succ k ih =>
    intro n hn c hc
    have hP : 0 < 10 ^ k := pow_pos (by norm_num) k
    simp only [pad, List.mem_cons] at hc
    rcases hc with rfl | hc'
    · have hq : n / 10 ^ k < 10 := by
        rw [Nat.div_lt_iff_lt_mul hP]
        rw [pow_succ] at hn
        omega
      generalize hgen : n / 10 ^ k = d at hq ⊢
      omega
    · exact ih (n % 10 ^ k) (Nat.mod_lt _ hP) c hc'

theorem pad_foldl : ∀ (k n acc : ℕ), n < 10 ^ k →
    (pad k n).foldl (fun a c => 10 * a + (c - 48)) acc = acc * 10 ^ k + n := by
  intro k
  induction k with
  | zero =>
    intro n acc hn
    simp only [pow_zero] at hn
    obtain rfl : n = 0 := by omega
    simp [pad]
  | succ k ih =>
    intro n acc hn
    have hP : 0 < 10 ^ k := pow_pos (by norm_num) k
    rw [pad, List.foldl_cons, ih (n % 10 ^ k) _ (Nat.mod_lt _ hP)]
    have h48 : 48 + n / 10 ^ k - 48 = n / 10 ^ k := Nat.add_sub_cancel_left 48 (n / 10 ^ k)
    rw [h48]
    have hdm : 10 ^ k * (n / 10 ^ k) + n % 10 ^ k = n := Nat.div_add_mod n (10 ^ k)
    calc (10 * acc + n / 10 ^ k) * 10 ^ k + n % 10 ^ k
        = acc * (10 ^ k * 10) + (10 ^ k * (n / 10 ^ k) + n % 10 ^ k) := by ring
      _ = acc * 10 ^ (k + 1) + n := by rw [hdm, pow_succ]

theorem digitsVal_pad (k n : ℕ) (hk : 0 < k) (hn : n < 10 ^ k) :
    digitsVal (pad k n) = some n := by
  have hne : pad k n ≠ [] := by
    cases k with
    | zero => omega
    | succ k => simp [pad]
  have hall : (pad k n).all (fun c => 48 ≤ c && c ≤ 57) = true := by
    rw [List.all_eq_true]
    intro c hc
    have := pad_digit_bounds k n hn c hc
    simp only [Bool.and_eq_true, decide_eq_true_eq]
    omega
  rw [digitsVal, if_neg hne, if_pos hall, pad_foldl k n 0 hn]
  simp

theorem splitDash_append (rest : List ℕ) :
    ∀ xs, (∀ c ∈ xs, c ≠ 45) → splitDash (xs ++ 45 :: rest) = (xs, rest) := by
  intro xs
  induction xs with
  | nil => intro _; simp [splitDash]
  | cons c cs ih =>
    intro h
    have hc : c ≠ 45 := h c (List.mem_cons_self c cs)
    rw [List.cons_append, splitDash, if_neg hc,
      ih (fun d hd => h d (List.mem_cons_of_mem _ hd))]

theorem specParsePeriod_fmt (y m : ℕ) (hy : y < 10 ^ 4) (hm : m < 10 ^ 2) :
    specParsePeriod (fmtMonth y m) = some (12 * y + m) := by
  have hnd : ∀ c ∈ pad 4 y, c ≠ 45 := by
    intro c hc
    have := pad_digit_bounds 4 y hy c hc
    omega
  rw [specParsePeriod, fmtMonth, splitDash_append _ _ hnd]
  rw [digitsVal_pad 4 y (by norm_num) hy, digitsVal_pad 2 m (by norm_num) hm]

theorem chronVal_fmt (y m : ℕ) (hy : y < 10 ^ 4) (hm : m < 10 ^ 2) :
    chronVal (fmtMonth y m) = 12 * y + m := by
  rw [chronVal, specParsePeriod_fmt y m hy hm]
  rfl

/-- C8 amended: the source orders month labels by plain lexicographic
string comparison (not by parsing into period values); on the zero-padded
`YYYY-MM` labels the query produces, that order coincides with
chronological order, so the sorted `months` list and the last-3-months
window are chronologically correct, also across calendar-year
boundaries. -/
theorem c8_amended_chronological (l : List (List ℕ))
    (hwf : ∀ x ∈ l, ∃ y m, y < 10000 ∧ 1 ≤ m ∧ m ≤ 12 ∧ x = fmtMonth y m) :
    (months l).Pairwise (fun a b => chronVal a ≤ chronVal b) ∧
    ∀ a ∈ (sortMonths (months l)).take ((sortMonths (months l)).length - 3),
      ∀ b ∈ last3months l, chronVal a ≤ chronVal b := by
  have key : ∀ L : List (List ℕ),
      (∀ x ∈ L, ∃ y m, y < 10000 ∧ 1 ≤ m ∧ m ≤ 12 ∧ x = fmtMonth y m) →
      (sortMonths L).Pairwise (fun a b => chronVal a ≤ chronVal b) := by
    intro L hL
    refine (sortMonths_pairwise L).imp_of_mem ?_
    intro a b ha hb hab
    obtain ⟨y1, m1, hy1, hm1l, hm1u, rfl⟩ := hL a ((sortMonths_mem a L).mp ha)
    obtain ⟨y2, m2, hy2, hm2l, hm2u, rfl⟩ := hL b ((sortMonths_mem b L).mp hb)
    have hy1' : y1 < 10 ^ 4 := lt_of_lt_of_le hy1 (by norm_num)
    have hy2' : y2 < 10 ^ 4 := lt_of_lt_of_le hy2 (by norm_num)
    have hm1' : m1 < 10 ^ 2 := lt_of_lt_of_le (show m1 < 100 by omega) (by norm_num)
    have hm2' : m2 < 10 ^ 2 := lt_of_lt_of_le (show m2 < 100 by omega) (by norm_num)
    rw [chronVal_fmt y1 m1 hy1' hm1', chronVal_fmt y2 m2 hy2' hm2']
    have hiff := (strLe_fmt y1 m1 y2 m2 hy1' hy2' hm1' hm2').mp hab
    omega
  refine ⟨key l hwf, ?_⟩
  have hwf2 : ∀ x ∈ months l, ∃ y m, y < 10000 ∧ 1 ≤ m ∧ m ≤ 12 ∧ x = fmtMonth y m :=
    fun x hx => hwf x ((sortMonths_mem x l).mp hx)
  have hchron := key (months l) hwf2
  have hsplit := List.take_append_drop
    ((sortMonths (months l)).length - 3) (sortMonths (months l))
  rw [← hsplit] at hchron
  exact (List.pairwise_append.mp hchron).2.2

/-- C8 counterexample: the code's sort is lexicographic, not the
parse-then-compare ordering the claim describes: on the labels "2023-9"
and "2023-10" (code points below) the code's sort puts the
chronologically later label first, which the claimed parse-based
ordering never does. -/
theorem c8_lex_not_parse_counterexample :
    sortMonths [[50, 48, 50, 51, 45, 57], [50, 48, 50, 51, 45, 49, 48]] =
      [[50, 48, 50, 51, 45, 49, 48], [50, 48, 50, 51, 45, 57]] ∧
    chronVal [50, 48, 50, 51, 45, 57] < chronVal [50, 48, 50, 51, 45, 49, 48] := by
  decide

/-- C8 amended witness: the theorem applied to three concrete labels
crossing the 2023/2024 year boundary; the sorted output is chronological. -/
theorem c8_amended_chronological_witness :
    (months [fmtMonth 2023 12, fmtMonth 2024 1, fmtMonth 2023 11]).Pairwise
      (fun a b => chronVal a ≤ chronVal b) ∧
    months [fmtMonth 2023 12, fmtMonth 2024 1, fmtMonth 2023 11] =
      [fmtMonth 2023 11, fmtMonth 2023 12, fmtMonth 2024 1] :=
  ⟨(c8_amended_chronological [fmtMonth 2023 12, fmtMonth 2024 1, fmtMonth 2023 11]
      (by
        intro x hx
        fin_cases hx
        · exact ⟨2023, 12, by norm_num, by norm_num, by norm_num, rfl⟩
        · exact ⟨2024, 1, by norm_num, by norm_num, by norm_num, rfl⟩
        · exact ⟨2023, 11, by norm_num, by norm_num, by norm_num, rfl⟩)).1,
    by decide⟩
